import Mathlib

/-!
# Verification of the agfin_mvp AI-service core

A shallow embedding of the tool handlers, tool registry, conversation
orchestrator loop and history manager of the `ai-service` component, together
with proofs about their behaviour.

Conventions of the embedding:

* Python dictionaries / JSONB values are modelled by the inductive `Json`
  below.  Result payloads keep the literal key order of the source.
* Database rows (`applications`, `documents`, `module_data`, `audit_trail`)
  are records; the database is a record of lists of rows.  `fetchrow`
  becomes `List.find?`, `fetch`+filters become `List.filter`, SQL `UPDATE`
  becomes `List.map` guarded on the row key, SQL `INSERT` appends.
* The source addresses the `module_data` table under two sets of column
  names (`field_name`/`field_value`/`data_source` in update_module.py,
  `field_id`/`value`/`source` in request_audit.py; likewise certify reads
  `extraction_status` while extract_fields reads `ocr_status` on
  `documents`).  The schema itself is outside the repository; the embedding
  uses a single logical column for each such pair.
* Wall-clock readings (`datetime.utcnow()`, `NOW()`, `time.time()`) are
  passed in as explicit parameters, since the clock is an external effect.
* Handlers are total state transformers `… → DB → Json × DB`; the
  `asyncpg.PostgresError` / generic `except` fallbacks of the source are
  unreachable in the pure model and are not represented.
-/

/-- JSON / JSONB values and Python dict payloads. -/
inductive Json where
  | null : Json
  | bool (b : Bool) : Json
  | num (n : Int) : Json
  | str (s : String) : Json
  | arr (elems : List Json) : Json
  | obj (kvs : List (String × Json)) : Json

namespace Json

/-- First binding of a key in an association list (Python dict lookup). -/
def lookupKey : List (String × Json) → String → Option Json
  | [], _ => none
  | (k, v) :: rest, key => if k == key then some v else lookupKey rest key

/-- `payload.get(key)` on an object; `none` on non-objects. -/
def getKey : Json → String → Option Json
  | .obj kvs, key => lookupKey kvs key
  | _, _ => none

/-- `key in payload` for an object payload. -/
def hasKey (j : Json) (key : String) : Bool :=
  (j.getKey key).isSome

/-- Replace the binding of `key` if present, else append it. -/
def setKeyList (x : Json) (key : String) : List (String × Json) → List (String × Json)
  | [] => [(key, x)]
  | (k, v) :: rest =>
    if k == key then (k, x) :: rest else (k, v) :: setKeyList x key rest

/-- `jsonb_set(v, '\x7bkey\x7d', x)` restricted to the object case used by the
source; non-objects are returned unchanged. -/
def jsonbSet (v : Json) (key : String) (x : Json) : Json :=
  match v with
  | .obj kvs => .obj (setKeyList x key kvs)
  | other => other

/-- Python truthiness of a decoded JSON value
(`None`/`False`/`0`/`""`/`[]`/`\x7b\x7d` are falsy). -/
def truthy : Json → Bool
  | .null => false
  | .bool b => b
  | .num n => n != 0
  | .str s => !s.isEmpty
  | .arr l => !l.isEmpty
  | .obj l => !l.isEmpty

/-- Python `str()` of a decoded JSON value, as far as the source interpolates
one into a message. -/
def pyStr : Json → String
  | .null => "None"
  | .bool true => "True"
  | .bool false => "False"
  | .num n => toString n
  | .str s => s
  | .arr _ => "[...]"
  | .obj _ => "\x7b...\x7d"

end Json

/-- A row of the `applications` table. -/
structure Application where
  id : String
  user_id : String
  status : String
  certification_type : String
  notes : Option String
  created_at : String
  updated_at : String

/-- A row of the `documents` table.  `extraction_status` is the single
logical OCR-status column (named `ocr_status` in extract_fields.py). -/
structure Document where
  id : String
  application_id : String
  document_type : String
  file_name : String
  extraction_status : String
  extraction_metadata : Option Json
  metadata : Option Json

/-- A row of the `module_data` table.  `field_name` is the single logical
field-identifier column (named `field_id` in request_audit.py) and `value`
the single logical value column (named `field_value` in update_module.py);
`data_source` is named `source` in request_audit.py.  `module_number` is
determined 1:1 by `module_name` per the fixed five-module mapping. -/
structure ModuleRow where
  id : Nat
  application_id : String
  module_number : Nat
  module_name : String
  field_name : String
  value : Json
  data_source : String
  confidence_score : Rat
  updated_at : String

/-- A row of the append-only `audit_trail` table. -/
structure AuditRow where
  application_id : String
  user_id : String
  action : String
  field_id : Option String
  new_value : String
  created_at : String

/-- The relational store, with a generator for fresh `module_data` ids. -/
structure DB where
  applications : List Application
  documents : List Document
  module_data : List ModuleRow
  audit_trail : List AuditRow
  next_module_id : Nat

/-- The `session_context` dictionary handed to every handler. -/
structure Ctx where
  user_id : Option String
  application_id : Option String

/-- Python truthiness of an optional string (`None` and `""` are falsy). -/
def strTruthy : Option String → Bool
  | none => false
  | some s => !s.isEmpty

/-- Shared target-application resolution: explicit argument first, else the
session context; a falsy result is the `application_id_required` branch. -/
def resolveAppId (application_id : Option String) (ctx : Option Ctx) : Option String :=
  let target := if strTruthy application_id then application_id else
    match ctx with
    | some c => c.application_id
    | none => application_id
  if strTruthy target then target else none

/-- `session_context.get("user_id") if session_context else None`, normalised
to `""` for the falsy cases the source tests with `if user_id and …`. -/
def ctxUser (ctx : Option Ctx) : String :=
  match ctx with
  | some c => c.user_id.getD ""
  | none => ""

namespace AgFin

/-- Count of the application's documents in a given extraction status
(the `GROUP BY extraction_status` dictionary of certify_application.py). -/
def docStatusCount (docs : List Document) (st : String) : Nat :=
  (docs.filter (fun d => d.extraction_status == st)).length

/-- Long display names of the five modules (certify_application.py). -/
def moduleLongName : Nat → String
  | 1 => "Financial Information"
  | 2 => "Compliance Records"
  | 3 => "Operations Data"
  | 4 => "Sustainability Practices"
  | 5 => "Risk Management"
  | _ => ""

/-- Required modules with no data (check 2 of certify_application.py). -/
def missingModules (db : DB) (target : String) : List Nat :=
  [1, 2, 3, 4, 5].filter (fun m =>
    !((db.module_data.filter (fun r => r.application_id == target)).map
        (fun r => r.module_number)).contains m)

/-- The audit-flag test of check 3 of certify_application.py:
`(jsonb_typeof(value) = 'object' AND value->>'_audit_flagged' = 'true') OR
value @> '\x7b"_audit_flagged": true\x7d'::jsonb`.  Both disjuncts require an
object whose `_audit_flagged` member reads back as `'true'`. -/
def isAuditFlagged (v : Json) : Bool :=
  match v with
  | .obj kvs =>
    match Json.lookupKey kvs "_audit_flagged" with
    | some (.bool b) => b
    | some (.str s) => s == "true"
    | _ => false
  | _ => false

/-- Count of fields carrying an active audit flag (check 3). -/
def flaggedCount (db : DB) (target : String) : Nat :=
  (db.module_data.filter (fun r =>
    r.application_id == target && isAuditFlagged r.value)).length

/-- Messages of the document-status checks (check 1 of certify). -/
def certifyDocStatusFailures (docs : List Document) : List String :=
  (if docStatusCount docs "pending" > 0 then
    [toString (docStatusCount docs "pending") ++ " document(s) still pending processing"]
  else []) ++
  (if docStatusCount docs "processing" > 0 then
    [toString (docStatusCount docs "processing") ++ " document(s) currently being processed"]
  else []) ++
  (if docStatusCount docs "error" > 0 then
    [toString (docStatusCount docs "error") ++ " document(s) failed processing"]
  else [])

/-- Message of the missing-modules check (check 2 of certify). -/
def certifyModuleFailures (db : DB) (target : String) : List String :=
  let missing := missingModules db target
  if missing.isEmpty then [] else
    ["Missing required modules: " ++
      String.intercalate ", "
        (missing.map (fun m => "Module " ++ toString m ++ " (" ++ moduleLongName m ++ ")"))]

/-- Message of the flagged-fields check (check 3 of certify). -/
def certifyFlaggedFailures (db : DB) (target : String) : List String :=
  if flaggedCount db target > 0 then
    [toString (flaggedCount db target) ++
      " field(s) flagged for audit - must be reviewed before certification"]
  else []

/-- Message of the at-least-one-document check (check 4 of certify). -/
def certifyNoDocFailures (docs : List Document) : List String :=
  if docs.length == 0 then
    ["No documents uploaded - at least one document is required"]
  else []

/-- The `validation_failures` list of certify_application.py, every failing
check's message appended in source order. -/
def certifyFailures (db : DB) (target : String) : List String :=
  let docs := db.documents.filter (fun d => d.application_id == target)
  certifyDocStatusFailures docs ++
  certifyModuleFailures db target ++
  certifyFlaggedFailures db target ++
  certifyNoDocFailures docs

/-- The `validation_failed` payload of certify_application.py. -/
def validationFailedJson (app : Application) (failures : List String) : Json :=
  .obj [("error", .str "validation_failed"),
        ("message", .str "Application does not meet certification requirements. Please resolve the following issues:"),
        ("validation_failures", .arr (failures.map Json.str)),
        ("application_id", .str app.id),
        ("current_status", .str app.status)]

/-- The audit-trail row written by a successful certification. -/
def certifyAuditRow (target uid : String) (app : Application) (now : String) : AuditRow :=
  ⟨target, uid, "application_certified",
   none, "Application certified for " ++ app.certification_type, now⟩

/-- The write phase of certify_application.py, reached only when every
validation check passed: set the status to `approved`, append the
certification timestamp to the notes, bump `updated_at`, and append one
audit-trail row when a `user_id` is available. -/
def certifySuccess (db : DB) (now target uid : String) (app : Application) : Json × DB :=
  let apps := db.applications.map (fun a =>
    if a.id == target then
      { a with status := "approved", updated_at := now,
               notes := some ((a.notes.getD "") ++ "\n\nCertified at: " ++ now) }
    else a)
  let trail := if uid != "" then db.audit_trail ++ [certifyAuditRow target uid app now]
               else db.audit_trail
  let pdf_url := "/api/applications/" ++ target ++ "/certificate.pdf"
  (.obj [("success", .bool true),
         ("application_id", .str app.id),
         ("status", .str "approved"),
         ("certification_type", .str app.certification_type),
         ("certified_at", .str now),
         ("pdf_url", .str pdf_url),
         ("message", .str ("Application successfully certified and locked. Status: approved. Certificate PDF will be generated and available at " ++ pdf_url)),
         ("note", .str "This application is now locked and cannot be edited. It has entered the final review queue.")],
   { db with applications := apps, audit_trail := trail })

/-- certify_application.py: the multi-gate irreversible certification
handler. -/
def certify_application (db : DB) (now : String) (certification_confirmed : Bool)
    (application_id : Option String) (session_context : Option Ctx) : Json × DB :=
  if !certification_confirmed then
    (.obj [("error", .str "confirmation_required"),
           ("message", .str "Certification requires explicit confirmation. Set certification_confirmed=true to proceed. This action is irreversible and will lock the application.")],
     db)
  else
    match resolveAppId application_id session_context with
    | none =>
      (.obj [("error", .str "application_id_required"),
             ("message", .str "No application_id provided and no application linked to current session.")],
       db)
    | some target =>
      let uid := ctxUser session_context
      match db.applications.find? (fun a => a.id == target) with
      | none =>
        (.obj [("error", .str "application_not_found"),
               ("message", .str ("Application " ++ target ++ " not found."))],
         db)
      | some app =>
        if uid != "" && app.user_id != uid then
          (.obj [("error", .str "unauthorized"),
                 ("message", .str "You do not have permission to certify this application.")],
           db)
        else if app.status == "approved" || app.status == "rejected" then
          (.obj [("error", .str "already_certified"),
                 ("message", .str ("Application is already " ++ app.status ++ " and cannot be re-certified."))],
           db)
        else
          let failures := certifyFailures db target
          if !failures.isEmpty then
            (validationFailedJson app failures, db)
          else
            certifySuccess db now target uid app

/-- The fixed module-number → module-name map of update_module.py. -/
def moduleShortName : Nat → Option String
  | 1 => some "financial"
  | 2 => some "compliance"
  | 3 => some "operations"
  | 4 => some "sustainability"
  | 5 => some "risk"
  | _ => none

/-- The lookup key of update_module.py: one row per
(application, module name, field identifier). -/
def moduleKey (target mname fid : String) (r : ModuleRow) : Bool :=
  r.application_id == target && r.module_name == mname && r.field_name == fid

/-- The success payload of update_module.py. -/
def updateModuleSuccessJson (fid mname : String) (mnum : Nat) (old_value : Option Json)
    (value data_source : String) : Json :=
  .obj [("success", .bool true),
        ("field_id", .str fid),
        ("module_name", .str mname),
        ("module_number", .num mnum),
        ("old_value", old_value.getD .null),
        ("new_value", .str value),
        ("data_source", .str data_source),
        ("message", .str ("Successfully " ++
          (if (old_value.getD .null).truthy then "updated" else "created") ++
          " field '" ++ fid ++ "' in " ++ mname ++ " module (Module " ++ toString mnum ++ ")."))]

/-- update_module.py: upsert of one module field.  An existing row is
overwritten in place (source reclassified to `proxy_edited`); an absent
field is inserted with source `proxy_entered`; confidence is pinned to 1.0
on both paths and the application's `updated_at` is bumped.  The SQL INSERT
omits the `module_number` column; the embedding fills it from the 1:1
module-name mapping. -/
def update_module (db : DB) (now : String) (module_number : Nat) (field_id value : String)
    (application_id : Option String) (session_context : Option Ctx) : Json × DB :=
  match moduleShortName module_number with
  | none =>
    (.obj [("error", .str "invalid_module"),
           ("message", .str ("Module number must be between 1 and 5. Got: " ++ toString module_number))],
     db)
  | some module_name =>
    match resolveAppId application_id session_context with
    | none =>
      (.obj [("error", .str "application_id_required"),
             ("message", .str "No application_id provided and no application linked to current session. Please provide an application_id or link an application to this conversation.")],
       db)
    | some target =>
      let uid := ctxUser session_context
      match db.applications.find? (fun a => a.id == target) with
      | none =>
        (.obj [("error", .str "application_not_found"),
               ("message", .str ("Application " ++ target ++ " not found."))],
         db)
      | some app =>
        if uid != "" && app.user_id != uid then
          (.obj [("error", .str "unauthorized"),
                 ("message", .str "You do not have permission to update this application.")],
           db)
        else if app.status == "approved" || app.status == "rejected" then
          (.obj [("error", .str "application_locked"),
                 ("message", .str ("Cannot update fields in a " ++ app.status ++ " application. Application is locked."))],
           db)
        else
          let existing := db.module_data.find? (moduleKey target module_name field_id)
          let db' : DB :=
            match existing with
            | some row =>
              { db with module_data := db.module_data.map (fun r =>
                  if r.id == row.id then
                    { r with value := .str value, data_source := "proxy_edited",
                             confidence_score := 1, updated_at := now }
                  else r) }
            | none =>
              { db with
                module_data := db.module_data ++
                  [{ id := db.next_module_id, application_id := target,
                     module_number := module_number, module_name := module_name,
                     field_name := field_id, value := .str value,
                     data_source := "proxy_entered", confidence_score := 1,
                     updated_at := now }],
                next_module_id := db.next_module_id + 1 }
          let db'' := { db' with applications := db'.applications.map (fun a =>
            if a.id == target then { a with updated_at := now } else a) }
          let old_value := existing.map (fun r => r.value)
          let data_source := if existing.isSome then "proxy_edited" else "proxy_entered"
          (updateModuleSuccessJson field_id module_name module_number old_value value data_source,
           db'')

/-- The value transformation request_audit.py applies to a flagged field:
an object value gets `_audit_flagged: true` set in place; any other value
is wrapped in an object that keeps the original under `_value` alongside
the flag, the reason and the request timestamp. -/
def flagFieldValue (now reason : String) (v : Json) : Json :=
  match v with
  | .obj kvs => Json.jsonbSet (.obj kvs) "_audit_flagged" (.bool true)
  | other =>
    .obj [("_value", other),
          ("_audit_flagged", .bool true),
          ("_audit_reason", .str reason),
          ("_audit_requested_at", .str now)]

/-- One iteration of the field-flagging loop of request_audit.py: look the
field up by (application, field identifier), and if present rewrite its
value in place and append a detail line. -/
def flagOneField (now reason target : String) (acc : DB × Nat × List String)
    (fid : String) : DB × Nat × List String :=
  let (d, count, details) := acc
  match d.module_data.find? (fun r => r.application_id == target && r.field_name == fid) with
  | none => (d, count, details)
  | some row =>
    ({ d with module_data := d.module_data.map (fun r =>
        if r.id == row.id then
          { r with value := flagFieldValue now reason r.value, updated_at := now }
        else r) },
     count + 1,
     details ++ ["Field '" ++ fid ++ "' in module " ++ toString row.module_number ++ " flagged"])

/-- The document-flagging update of request_audit.py: merge the audit flag,
reason and timestamp into `metadata` and escalate `extraction_status` to
`audited` only from `processed`.  (The source issues this as one UPDATE with
three assignments to `metadata`, which Postgres would reject; the embedding
gives the evidently intended sequential semantics.  No claim depends on
this branch.) -/
def flagDocument (now reason : String) (doc : Document) : Document :=
  let m0 := doc.metadata.getD (.obj [])
  let m1 := Json.jsonbSet m0 "needs_audit" (.bool true)
  let m2 := Json.jsonbSet m1 "audit_reason" (.str reason)
  let m3 := Json.jsonbSet m2 "audit_requested_at" (.str now)
  { doc with metadata := some m3,
             extraction_status :=
               if doc.extraction_status == "processed" then "audited"
               else doc.extraction_status }

/-- Python truthiness of the optional `field_ids` list argument. -/
def listTruthy (l : Option (List String)) : Bool :=
  match l with
  | none => false
  | some xs => !xs.isEmpty

/-- The success payload of request_audit.py. -/
def requestAuditSuccessJson (reason : String) (count : Nat) (flagged_document : Bool)
    (details : List String) : Json :=
  .obj [("success", .bool true),
        ("flagged_fields_count", .num count),
        ("flagged_document", .bool flagged_document),
        ("reason", .str reason),
        ("details", .arr (details.map Json.str)),
        ("message", .str ("Successfully flagged " ++ toString count ++ " field(s) and " ++
          (if flagged_document then "1" else "0") ++
          " document(s) for manual audit review. Reason: " ++ reason))]

/-- request_audit.py: flag fields and/or a document for human review.
Unlike update_module.py, this handler has no terminal-status
(`application_locked`) gate: after the ownership check it proceeds straight
to its writes whatever the application's status. -/
def request_audit (db : DB) (now reason : String) (application_id : Option String)
    (document_id : Option String) (field_ids : Option (List String))
    (session_context : Option Ctx) : Json × DB :=
  match resolveAppId application_id session_context with
  | none =>
    (.obj [("error", .str "application_id_required"),
           ("message", .str "No application_id provided and no application linked to current session. Please provide an application_id or link an application to this conversation.")],
     db)
  | some target =>
    if !strTruthy document_id && !listTruthy field_ids then
      (.obj [("error", .str "no_targets_specified"),
             ("message", .str "Must specify either document_id or field_ids (or both) to flag for audit.")],
       db)
    else
      let uid := ctxUser session_context
      match db.applications.find? (fun a => a.id == target) with
      | none =>
        (.obj [("error", .str "application_not_found"),
               ("message", .str ("Application " ++ target ++ " not found."))],
         db)
      | some app =>
        if uid != "" && app.user_id != uid then
          (.obj [("error", .str "unauthorized"),
                 ("message", .str "You do not have permission to flag items in this application.")],
           db)
        else
          -- document branch
          let docStep : (Json × DB) ⊕ (DB × Bool × List String) :=
            if strTruthy document_id then
              let did := document_id.getD ""
              match db.documents.find? (fun d =>
                  d.id == did && d.application_id == target) with
              | none =>
                Sum.inl
                  (.obj [("error", .str "document_not_found"),
                         ("message", .str ("Document " ++ did ++ " not found in application " ++ target ++ "."))],
                   db)
              | some doc =>
                Sum.inr
                  ({ db with documents := db.documents.map (fun d =>
                      if d.id == did then flagDocument now reason d else d) },
                   true,
                   ["Document " ++ doc.document_type ++ " flagged"])
            else Sum.inr (db, false, [])
          match docStep with
          | Sum.inl err => err
          | Sum.inr (db1, flagged_document, details0) =>
            -- field branch
            let (db2, count, details) :=
              if listTruthy field_ids then
                (field_ids.getD []).foldl (flagOneField now reason target) (db1, 0, details0)
              else (db1, 0, details0)
            -- audit-trail entry (only when a user id is available)
            let field_list : Option String :=
              if listTruthy field_ids then
                some (String.intercalate ", " (field_ids.getD []))
              else none
            let db3 :=
              if uid != "" then
                { db2 with audit_trail := db2.audit_trail ++
                    [⟨target, uid, "audit_requested", field_list, reason, now⟩] }
              else db2
            let db4 := { db3 with applications := db3.applications.map (fun a =>
              if a.id == target then { a with updated_at := now } else a) }
            (requestAuditSuccessJson reason count flagged_document details, db4)

/-- extract_fields.py: a status query / trigger over a document's OCR
pipeline (the OCR itself is an external collaborator).  Reads cached
results when `completed`, reports progress when `processing`, surfaces the
stored error when `failed` — the status this path uses to represent OCR
failure — and flips `pending` to `processing`. -/
def extract_fields (db : DB) (document_id : String)
    (field_hints : Option (List String)) (session_context : Option Ctx) : Json × DB :=
  match db.documents.find? (fun d => d.id == document_id) with
  | none =>
    (.obj [("error", .str "document_not_found"),
           ("message", .str ("Document " ++ document_id ++ " not found."))],
     db)
  | some doc =>
    -- the SQL joins applications for the owner id; a missing parent row
    -- would also surface as document_not_found
    match db.applications.find? (fun a => a.id == doc.application_id) with
    | none =>
      (.obj [("error", .str "document_not_found"),
             ("message", .str ("Document " ++ document_id ++ " not found."))],
       db)
    | some app =>
      let uid := ctxUser session_context
      if uid != "" && app.user_id != uid then
        (.obj [("error", .str "unauthorized"),
               ("message", .str "You do not have permission to access this document.")],
         db)
      else
        let meta := doc.extraction_metadata
        let metaTruthy := match meta with
          | some m => m.truthy
          | none => false
        if doc.extraction_status == "completed" && metaTruthy then
          let m := meta.getD .null
          (.obj [("document_id", .str doc.id),
                 ("file_name", .str doc.file_name),
                 ("ocr_status", .str "completed"),
                 ("extracted_fields", (m.getKey "fields").getD (.arr [])),
                 ("processing_time", (m.getKey "processing_time").getD (.num 0)),
                 ("metadata", .obj [
                    ("page_count", (m.getKey "page_count").getD (.num 1)),
                    ("extraction_date", (m.getKey "extraction_date").getD .null),
                    -- the source default is the float 0.0
                    ("confidence_avg", (m.getKey "confidence_avg").getD (.num 0))]),
                 ("message", .str "Document already processed. Returning cached extraction results.")],
           db)
        else if doc.extraction_status == "processing" then
          (.obj [("document_id", .str doc.id),
                 ("file_name", .str doc.file_name),
                 ("ocr_status", .str "processing"),
                 ("message", .str "Document is currently being processed. Please check back in a few moments."),
                 ("estimated_time", .str "30-60 seconds")],
           db)
        else if doc.extraction_status == "failed" then
          let error_message := if metaTruthy then ((meta.getD .null).getKey "error").getD .null
                               else .str "Unknown error"
          (.obj [("error", .str "ocr_failed"),
                 ("message", .str ("OCR processing failed for this document: " ++ error_message.pyStr)),
                 ("document_id", .str doc.id),
                 ("file_name", .str doc.file_name)],
           db)
        else if doc.extraction_status == "pending" then
          (.obj [("document_id", .str doc.id),
                 ("file_name", .str doc.file_name),
                 ("ocr_status", .str "processing"),
                 ("message", .str "Document processing has been initiated. This typically takes 30-60 seconds."),
                 ("action_required", .str "poll_for_completion"),
                 ("estimated_time", .str "30-60 seconds"),
                 ("field_hints", .arr ((field_hints.getD []).map Json.str)),
                 ("note", .str "In production, this would integrate with Docling OCR service. For now, this is a stub implementation.")],
           { db with documents := db.documents.map (fun d =>
               if d.id == document_id then { d with extraction_status := "processing" } else d) })
        else
          (.obj [("error", .str "unknown_status"),
                 ("message", .str ("Document has unknown OCR status: " ++ doc.extraction_status))],
           db)

/-! ## Tool registry (registry.py) -/

/-- The three ways a Python handler invocation can come back to
`ToolRegistry.execute_tool`: a returned payload dictionary, a `TypeError`
(malformed / missing arguments), or any other exception. -/
inductive HandlerOutcome where
  | ok (result : List (String × Json)) : HandlerOutcome
  | typeError (msg : String) : HandlerOutcome
  | exn (msg : String) : HandlerOutcome

/-- One registry entry: a tool name together with the observable behaviour
of its handler on a given input and session context (the source merges the
context into the keyword arguments of the call). -/
structure RegEntry where
  name : String
  behavior : Json → Option Ctx → HandlerOutcome

/-- `ToolRegistry.execute_tool`: route a `(name, input, session_context)`
triple to the registered handler and classify the outcome.  An unknown name
yields a `tool_not_found` payload (this payload is the only outcome built
without a `timestamp` key); a `TypeError` yields `invalid_input`; any other
exception yields `execution_error`; a returned payload is a success exactly
when it has no `error` key.  The function is total: no outcome propagates
as an exception. -/
def execute_tool (tools : List RegEntry) (tool_name : String) (tool_input : Json)
    (session_context : Option Ctx) (execution_time : Int) (timestamp : String) : Json :=
  match tools.find? (fun t => t.name == tool_name) with
  | none =>
    .obj [("success", .bool false),
          ("error", .obj [
             ("type", .str "tool_not_found"),
             ("message", .str ("Tool '" ++ tool_name ++ "' not found in registry")),
             ("available_tools", .arr (tools.map (fun t => .str t.name)))]),
          ("execution_time", .num execution_time),
          ("tool_name", .str tool_name)]
  | some entry =>
    match entry.behavior tool_input session_context with
    | .ok result =>
      .obj [("success", .bool ((Json.lookupKey result "error").isNone)),
            ("result", .obj result),
            ("execution_time", .num execution_time),
            ("tool_name", .str tool_name),
            ("timestamp", .str timestamp)]
    | .typeError e =>
      .obj [("success", .bool false),
            ("error", .obj [
               ("type", .str "invalid_input"),
               ("message", .str ("Invalid input parameters for tool '" ++ tool_name ++ "': " ++ e)),
               ("details", .str e)]),
            ("execution_time", .num execution_time),
            ("tool_name", .str tool_name),
            ("timestamp", .str timestamp)]
    | .exn e =>
      .obj [("success", .bool false),
            ("error", .obj [
               ("type", .str "execution_error"),
               ("message", .str ("Unexpected error executing tool '" ++ tool_name ++ "': " ++ e)),
               ("details", .str e)]),
            ("execution_time", .num execution_time),
            ("tool_name", .str tool_name),
            ("timestamp", .str timestamp)]

/-! ## History manager (conversation/history.py) -/

/-- A raw stored message as loaded from the database; `role` and `content`
are read with `.get`, so either may be absent. -/
structure RawMsg where
  role : Option String
  content : Option String

/-- A formatted `\x7brole, content\x7d` message ready for the LLM API. -/
structure ApiMsg where
  role : String
  content : String

/-- The configuration of `ConversationHistory`: the token budget.  The
character→token ratio is the default `1 / 4`; with that ratio the source's
`int(total_chars * 0.25)` is exactly `total_chars / 4` (0.25 is a power of
two, so the float product is exact). -/
structure HistCfg where
  max_tokens : Nat

/-- `estimate_tokens` on raw stored messages. -/
def estimateTokens (msgs : List RawMsg) : Nat :=
  (msgs.foldl (fun acc m => acc + (m.content.getD "").length) 0) / 4

/-- The greedy backward walk of `truncate_to_fit`: `rem_rev` is the list of
messages older than the kept window, newest first; each is prepended only
while the running estimate stays within the budget, and the walk stops at
the first message that would exceed it. -/
def truncGo (cfg : HistCfg) : List RawMsg → List RawMsg → List RawMsg
  | [], truncated => truncated
  | msg :: rest, truncated =>
    let test := msg :: truncated
    if estimateTokens test ≤ cfg.max_tokens then truncGo cfg rest test
    else truncated

/-- `truncate_to_fit`: keep the most recent `keep_most_recent` messages
unconditionally, then greedily prepend older messages while the estimate
fits the budget.  (For `keep_most_recent = 0` the Python slices `[-0:]` /
`[:-0]` degenerate to the whole list and the empty list.) -/
def truncate_to_fit (cfg : HistCfg) (messages : List RawMsg) (keep_most_recent : Nat) :
    List RawMsg :=
  if messages.isEmpty then []
  else if estimateTokens messages ≤ cfg.max_tokens then messages
  else
    let kept :=
      if messages.length > keep_most_recent then
        if keep_most_recent == 0 then messages
        else messages.drop (messages.length - keep_most_recent)
      else messages
    let remaining :=
      if messages.length > keep_most_recent then
        if keep_most_recent == 0 then []
        else messages.take (messages.length - keep_most_recent)
      else []
    truncGo cfg remaining.reverse kept

/-- `format_for_claude` (without metadata): keep only messages whose role is
exactly `user` or `assistant`, defaulting a missing content to `""`. -/
def format_for_claude (msgs : List RawMsg) : List ApiMsg :=
  msgs.filterMap (fun m =>
    match m.role with
    | some r =>
      if r == "user" || r == "assistant" then some ⟨r, m.content.getD ""⟩ else none
    | none => none)

/-- The scanning loop of `validate_alternation`: rejects an invalid role
and, via the combined `prev_role is not None and role == prev_role` test of
the source, two consecutive equal roles. -/
def validateGo : Option String → Nat → List ApiMsg → Bool × Option String
  | _, _, [] => (true, none)
  | prev, idx, m :: rest =>
    if !(m.role == "user" || m.role == "assistant") then
      (false, some ("Invalid role '" ++ m.role ++ "' at index " ++ toString idx))
    else if prev.isSome && m.role == prev.getD "" then
      (false, some ("Non-alternating roles at index " ++ toString idx ++ ": " ++
        prev.getD "" ++ " -> " ++ m.role))
    else validateGo (some m.role) (idx + 1) rest

/-- `validate_alternation`: the scan above followed by the
starts-with-`user` check; the empty list is valid. -/
def validate_alternation (msgs : List ApiMsg) : Bool × Option String :=
  match msgs with
  | [] => (true, none)
  | first :: _ =>
    match validateGo none 0 msgs with
    | (false, e) => (false, e)
    | (true, _) =>
      if first.role != "user" then (false, some "Conversation must start with user message")
      else (true, none)

/-- The message list `prepare_for_api` builds before validating it:
truncation, formatting, and the optional appended new user message. -/
def preparedList (cfg : HistCfg) (messages : List RawMsg)
    (new_user_message : Option String) (auto_truncate : Bool) : List ApiMsg :=
  let msgs := if auto_truncate then truncate_to_fit cfg messages 10 else messages
  let formatted := format_for_claude msgs
  match new_user_message with
  | some s => if !s.isEmpty then formatted ++ [⟨"user", s⟩] else formatted
  | none => formatted

/-- `prepare_for_api`: build the list and validate alternation; a violation
raises `ValueError` (modelled as `Except.error`) instead of being repaired. -/
def prepare_for_api (cfg : HistCfg) (messages : List RawMsg)
    (new_user_message : Option String) (auto_truncate : Bool) :
    Except String (List ApiMsg) :=
  match validate_alternation (preparedList cfg messages new_user_message auto_truncate) with
  | (false, e) => .error ("Invalid message sequence: " ++ e.getD "None")
  | (true, _) => .ok (preparedList cfg messages new_user_message auto_truncate)

/-- The clean alternation specification: roles follow the strict
user/assistant alternation pattern expected after `r`. -/
def altChain : String → List ApiMsg → Bool
  | _, [] => true
  | r, m :: rest =>
    m.role == r && altChain (if r == "user" then "assistant" else "user") rest

/-- A message list strictly alternates starting with `user`. -/
def StrictAlt (msgs : List ApiMsg) : Bool :=
  altChain "user" msgs

/-- Two adjacent messages share a role. -/
def hasConsecDup : List ApiMsg → Bool
  | a :: b :: rest => a.role == b.role || hasConsecDup (b :: rest)
  | _ => false

/-! ## Conversation orchestrator, blocking mode (claude/client.py) -/

/-- One reply of the LLM transport: a stop reason and a list of content
blocks (each block a JSON object). -/
structure LLMResponse where
  stop_reason : Option String
  content : List Json

/-- One entry of the orchestrator's accumulated message list. -/
structure LoopMsg where
  role : String
  content : Json

/-- The placeholder `_execute_tool` of claude/client.py. -/
def placeholderExecuteTool (tool_name : String) (tool_input : Json) : String :=
  "Tool " ++ tool_name ++ " executed with input: " ++ tool_input.pyStr

/-- The `tool_result` block built for one `tool_use` block. -/
def toolResultBlock (block : Json) : Json :=
  .obj [("type", .str "tool_result"),
        ("tool_use_id", (block.getKey "id").getD .null),
        ("content", .str (placeholderExecuteTool
          (match block.getKey "name" with
           | some (.str n) => n
           | _ => "")
          ((block.getKey "input").getD (.obj []))))]

/-- The content payload `send_message` is given: the content of the last
accumulated message (the source sends only `messages[-1]["content"]`). -/
def lastContent (messages : List LoopMsg) : Json :=
  match messages.getLast? with
  | some m => m.content
  | none => .null

/-- The two messages appended after a `tool_use` reply: the assistant's
content blocks and a synthetic user message carrying all tool results. -/
def appendToolTurn (messages : List LoopMsg) (response : LLMResponse) : List LoopMsg :=
  let tool_uses := response.content.filter (fun b =>
    match b.getKey "type" with
    | some (.str t) => t == "tool_use"
    | _ => false)
  messages ++ [⟨"assistant", .arr response.content⟩,
               ⟨"user", .arr (tool_uses.map toolResultBlock)⟩]

/-- The iteration body of `execute_with_tools`, with the LLM transport as an
oracle from the sent payload to a reply and the remaining iterations as
fuel.  A non-`tool_use` stop reason returns the reply; exhausted fuel is
the `RuntimeError("Tool execution loop exceeded max iterations: …")`. -/
def runLoop (oracle : Json → LLMResponse) (max_iterations : Nat) :
    Nat → List LoopMsg → Except String LLMResponse
  | 0, _ => .error ("Tool execution loop exceeded max iterations: " ++ toString max_iterations)
  | fuel + 1, messages =>
    let response := oracle (lastContent messages)
    if response.stop_reason == some "tool_use" then
      runLoop oracle max_iterations fuel (appendToolTurn messages response)
    else .ok response

/-- `ClaudeClient.execute_with_tools` (default `max_iterations = 5`). -/
def execute_with_tools (oracle : Json → LLMResponse) (message : String)
    (max_iterations : Nat) : Except String LLMResponse :=
  runLoop oracle max_iterations max_iterations [⟨"user", .str message⟩]

/-- The orchestrator's message list as it stands entering iteration `i`,
assuming every earlier reply requested tool use. -/
def loopMessages (oracle : Json → LLMResponse) (message : String) : Nat → List LoopMsg
  | 0 => [⟨"user", .str message⟩]
  | i + 1 =>
    let ms := loopMessages oracle message i
    let response := oracle (lastContent ms)
    if response.stop_reason == some "tool_use" then appendToolTurn ms response else ms

/-- The LLM reply produced at iteration `i` of the loop, assuming every
earlier reply requested tool use. -/
def replyAt (oracle : Json → LLMResponse) (message : String) (i : Nat) : LLMResponse :=
  oracle (lastContent (loopMessages oracle message i))

/-! ## Lemmas about the orchestrator loop -/

theorem runLoop_all_tool_use (oracle : Json → LLMResponse) (message : String)
    (max_iterations : Nat) :
    ∀ fuel n,
      (∀ i, n ≤ i → i < n + fuel → (replyAt oracle message i).stop_reason = some "tool_use") →
      runLoop oracle max_iterations fuel (loopMessages oracle message n) =
        .error ("Tool execution loop exceeded max iterations: " ++ toString max_iterations) := by
  intro fuel
  induction fuel with
  | zero => intro n _; rfl
  | succ fuel ih =>
    intro n h
    have hn : (replyAt oracle message n).stop_reason = some "tool_use" :=
      h n le_rfl (by omega)
    have hstep : loopMessages oracle message (n + 1) =
        appendToolTurn (loopMessages oracle message n)
          (oracle (lastContent (loopMessages oracle message n))) := by
      simp only [loopMessages]
      rw [if_pos]
      simpa [replyAt] using hn
    simp only [runLoop]
    rw [if_pos (by simpa [replyAt] using hn), ← hstep]
    exact ih (n + 1) (fun i hi hi' => h i (by omega) (by omega))

theorem runLoop_first_final (oracle : Json → LLMResponse) (message : String)
    (max_iterations : Nat) :
    ∀ fuel n j, n ≤ j → j < n + fuel →
      (∀ i, n ≤ i → i < j → (replyAt oracle message i).stop_reason = some "tool_use") →
      (replyAt oracle message j).stop_reason ≠ some "tool_use" →
      runLoop oracle max_iterations fuel (loopMessages oracle message n) =
        .ok (replyAt oracle message j) := by
  intro fuel
  induction fuel with
  | zero => intro n j h1 h2; omega
  | succ fuel ih =>
    intro n j hnj hlt hpre hj
    rcases Nat.eq_or_lt_of_le hnj with rfl | hlt'
    · simp only [runLoop]
      rw [if_neg (by simpa [replyAt] using hj)]
      rfl
    · have hn : (replyAt oracle message n).stop_reason = some "tool_use" :=
        hpre n le_rfl hlt'
      have hstep : loopMessages oracle message (n + 1) =
          appendToolTurn (loopMessages oracle message n)
            (oracle (lastContent (loopMessages oracle message n))) := by
        simp only [loopMessages]
        rw [if_pos]
        simpa [replyAt] using hn
      simp only [runLoop]
      rw [if_pos (by simpa [replyAt] using hn), ← hstep]
      exact ih (n + 1) j hlt' (by omega) (fun i hi hi' => hpre i (by omega) hi') hj

end AgFin

open AgFin

/-- Claim C9: in the blocking orchestrator loop `execute_with_tools`, if
every LLM reply up to the iteration cap requests tool use, the loop
terminates by raising the fatal "tool loop exceeded" error (an
`Except.error` propagating to the caller); otherwise it returns the first
reply whose stop reason is not `tool_use`. -/
theorem claim_C9_tool_loop (oracle : Json → LLMResponse) (message : String)
    (max_iterations : Nat) :
    ((∀ i, i < max_iterations → (replyAt oracle message i).stop_reason = some "tool_use") →
      execute_with_tools oracle message max_iterations =
        .error ("Tool execution loop exceeded max iterations: " ++ toString max_iterations))
    ∧ (∀ j, j < max_iterations →
        (∀ i, i < j → (replyAt oracle message i).stop_reason = some "tool_use") →
        (replyAt oracle message j).stop_reason ≠ some "tool_use" →
        execute_with_tools oracle message max_iterations = .ok (replyAt oracle message j)) := by
  constructor
  · intro h
    have := runLoop_all_tool_use oracle message max_iterations max_iterations 0
      (fun i _ hi => h i (by omega))
    simpa [execute_with_tools, loopMessages] using this
  · intro j hj hpre hfin
    have := runLoop_first_final oracle message max_iterations max_iterations 0 j
      (Nat.zero_le j) (by omega) (fun i _ hi => hpre i hi) hfin
    simpa [execute_with_tools, loopMessages] using this

/-- Witness for C9: an oracle that immediately returns a plain `end_turn`
reply makes the loop return that reply on the first iteration. -/
theorem claim_C9_tool_loop_witness :
    execute_with_tools (fun _ => ⟨some "end_turn", []⟩) "hello" 5 =
      .ok ⟨some "end_turn", []⟩ := by
  have h := (claim_C9_tool_loop (fun _ => ⟨some "end_turn", []⟩) "hello" 5).2 0
    (by omega) (fun i hi => absurd hi (Nat.not_lt_zero i)) (by simp [replyAt])
  simpa [replyAt] using h

/-- Counterexample to claim C4 as stated: the `tool_not_found` payload of
`execute_tool` is built without a `timestamp` key, so not every outcome
carries a timestamp. -/
theorem claim_C4_registry_cex :
    (execute_tool [] "bogus_tool" (.obj []) none 0 "2025-01-01T00:00:00").getKey "timestamp"
      = none := by
  rfl

/-- Claim C4 (amended): `ToolRegistry.execute_tool` is total and classifies
every call: an unregistered name yields a structured `tool_not_found`
payload listing the known tool names; a `TypeError` from the invocation
yields `invalid_input`; any other exception yields `execution_error`; a
returned payload without an `error` key is a success and one with an
`error` key is a handler-reported (non-fatal) failure.  Every outcome
carries the tool name and the execution time, and every outcome except
`tool_not_found` also carries a timestamp. -/
theorem claim_C4_registry (tools : List RegEntry) (tool_name : String) (tool_input : Json)
    (ctx : Option Ctx) (t : Int) (ts : String) :
    ((execute_tool tools tool_name tool_input ctx t ts).getKey "tool_name"
        = some (.str tool_name)
      ∧ (execute_tool tools tool_name tool_input ctx t ts).getKey "execution_time"
        = some (.num t))
    ∧ (tools.find? (fun e => e.name == tool_name) = none →
        (execute_tool tools tool_name tool_input ctx t ts).getKey "success"
          = some (.bool false)
        ∧ ((execute_tool tools tool_name tool_input ctx t ts).getKey "error").bind
            (fun e => e.getKey "type") = some (.str "tool_not_found")
        ∧ ((execute_tool tools tool_name tool_input ctx t ts).getKey "error").bind
            (fun e => e.getKey "available_tools")
          = some (.arr (tools.map (fun e => .str e.name)))
        ∧ (execute_tool tools tool_name tool_input ctx t ts).getKey "timestamp" = none)
    ∧ (∀ entry, tools.find? (fun e => e.name == tool_name) = some entry →
        (execute_tool tools tool_name tool_input ctx t ts).getKey "timestamp"
          = some (.str ts)
        ∧ (∀ res, entry.behavior tool_input ctx = .ok res →
            (execute_tool tools tool_name tool_input ctx t ts).getKey "success"
              = some (.bool (Json.lookupKey res "error").isNone)
            ∧ (execute_tool tools tool_name tool_input ctx t ts).getKey "result"
              = some (.obj res))
        ∧ (∀ e, entry.behavior tool_input ctx = .typeError e →
            (execute_tool tools tool_name tool_input ctx t ts).getKey "success"
              = some (.bool false)
            ∧ ((execute_tool tools tool_name tool_input ctx t ts).getKey "error").bind
                (fun x => x.getKey "type") = some (.str "invalid_input"))
        ∧ (∀ e, entry.behavior tool_input ctx = .exn e →
            (execute_tool tools tool_name tool_input ctx t ts).getKey "success"
              = some (.bool false)
            ∧ ((execute_tool tools tool_name tool_input ctx t ts).getKey "error").bind
                (fun x => x.getKey "type") = some (.str "execution_error"))) := by
  refine ⟨?_, ?_, ?_⟩
  · cases hfind : tools.find? (fun e => e.name == tool_name) with
    | none =>
      constructor <;> simp [execute_tool, hfind, Json.getKey, Json.lookupKey]
    | some entry =>
      cases hb : entry.behavior tool_input ctx <;>
        constructor <;> simp [execute_tool, hfind, hb, Json.getKey, Json.lookupKey]
  · intro hfind
    refine ⟨?_, ?_, ?_, ?_⟩ <;> simp [execute_tool, hfind, Json.getKey, Json.lookupKey]
  · intro entry hfind
    refine ⟨?_, ?_, ?_, ?_⟩
    · cases hb : entry.behavior tool_input ctx <;>
        simp [execute_tool, hfind, hb, Json.getKey, Json.lookupKey]
    · intro res hb; constructor <;> simp [execute_tool, hfind, hb, Json.getKey, Json.lookupKey]
    · intro e hb; constructor <;> simp [execute_tool, hfind, hb, Json.getKey, Json.lookupKey]
    · intro e hb; constructor <;> simp [execute_tool, hfind, hb, Json.getKey, Json.lookupKey]

/-- Witness for C4: a registered handler returning a payload without an
`error` key is classified as success, with timestamp, tool name and
execution time present. -/
theorem claim_C4_registry_witness :
    (execute_tool [⟨"query_application", fun _ _ => .ok [("application", .obj [])]⟩]
        "query_application" (.obj []) none 0 "2025-01-01T00:00:00").getKey "success"
      = some (.bool true)
    ∧ (execute_tool [⟨"query_application", fun _ _ => .ok [("application", .obj [])]⟩]
        "query_application" (.obj []) none 0 "2025-01-01T00:00:00").getKey "timestamp"
      = some (.str "2025-01-01T00:00:00") := by
  have h := claim_C4_registry
    [⟨"query_application", fun _ _ => .ok [("application", .obj [])]⟩]
    "query_application" (.obj []) none 0 "2025-01-01T00:00:00"
  have h2 := h.2.2 ⟨"query_application", fun _ _ => .ok [("application", .obj [])]⟩ rfl
  exact ⟨(h2.2.1 [("application", .obj [])] rfl).1, h2.1⟩

namespace AgFin

/-- The Bool computed by the scanning loop of `validate_alternation`,
without the index bookkeeping. -/
def scanOk : Option String → List ApiMsg → Bool
  | _, [] => true
  | prev, m :: rest =>
    (m.role == "user" || m.role == "assistant") &&
    !(prev.isSome && m.role == prev.getD "") &&
    scanOk (some m.role) rest

theorem validateGo_fst (msgs : List ApiMsg) :
    ∀ prev idx, (validateGo prev idx msgs).1 = scanOk prev msgs := by
  induction msgs with
  | nil => intro prev idx; rfl
  | cons m rest ih =>
    intro prev idx
    simp only [validateGo, scanOk]
    by_cases hv : (m.role == "user" || m.role == "assistant") = true
    · rw [if_neg (by simp [hv])]
      by_cases hc : (prev.isSome && m.role == prev.getD "") = true
      · rw [if_pos hc]
        simp [hv, hc]
      · rw [if_neg hc]
        simp only [Bool.not_eq_true] at hc
        simp [hv, hc, ih]
    · simp only [Bool.not_eq_true] at hv
      simp [hv]

theorem altChain_eq_scanOk (msgs : List ApiMsg) :
    ∀ r, r = "user" ∨ r = "assistant" →
      altChain r msgs = scanOk (some (if r == "user" then "assistant" else "user")) msgs := by
  induction msgs with
  | nil => intro r _; rfl
  | cons m rest ih =>
    intro r hr
    rcases hr with rfl | rfl
    · simp only [altChain, scanOk]
      by_cases hm : m.role = "user"
      · have h1 := ih "assistant" (Or.inr rfl)
        simp only [show ("assistant" == "user") = false from rfl, if_neg] at h1
        simp [hm, h1]
      · have e1 : (m.role == "user") = false := by simp [hm]
        by_cases hm2 : m.role = "assistant"
        · simp [e1, hm2]
        · have e2 : (m.role == "assistant") = false := by simp [hm2]
          simp [e1, e2]
    · simp only [altChain, scanOk]
      by_cases hm : m.role = "assistant"
      · have h1 := ih "user" (Or.inl rfl)
        simp only [show ("user" == "user") = true from rfl, if_pos] at h1
        simp [hm, h1]
      · have e1 : (m.role == "assistant") = false := by simp [hm]
        by_cases hm2 : m.role = "user"
        · simp [e1, hm2]
        · have e2 : (m.role == "user") = false := by simp [hm2]
          simp [e1, e2]

end AgFin

namespace AgFin

theorem validate_alternation_fst (msgs : List ApiMsg) :
    (validate_alternation msgs).1 = StrictAlt msgs := by
  cases msgs with
  | nil => rfl
  | cons first rest =>
    have hgo := validateGo_fst (first :: rest) none 0
    simp only [scanOk, Option.isSome_none, Bool.false_and, Bool.not_false,
      Bool.true_and] at hgo
    have halt : altChain "assistant" rest = scanOk (some "user") rest := by
      simpa using altChain_eq_scanOk rest "assistant" (Or.inr rfl)
    simp only [validate_alternation, StrictAlt, altChain]
    rw [show (validateGo none 0 (first :: rest)) =
        ((validateGo none 0 (first :: rest)).1, (validateGo none 0 (first :: rest)).2)
      from rfl, hgo]
    by_cases hu : first.role = "user"
    · have e1 : (first.role == "user") = true := by simp [hu]
      cases hs : scanOk (some "user") rest with
      | false => simp [e1, bne, halt, hs, hu]
      | true => simp [e1, bne, halt, hs, hu]
    · have e1 : (first.role == "user") = false := by simp [hu]
      cases h2 : (first.role == "assistant") with
      | false => simp [e1, h2]
      | true =>
        cases hs : scanOk (some first.role) rest with
        | false => simp [e1, h2, hs]
        | true => simp [e1, h2, hs, bne]

theorem altChain_no_dup (msgs : List ApiMsg) :
    ∀ r, r = "user" ∨ r = "assistant" → altChain r msgs = true →
      hasConsecDup msgs = false := by
  induction msgs with
  | nil => intro r _ _; rfl
  | cons a rest ih =>
    intro r hr hchain
    cases rest with
    | nil => rfl
    | cons b rest' =>
      rw [altChain, Bool.and_eq_true] at hchain
      obtain ⟨ha, htail⟩ := hchain
      have hb : (b.role == (if r == "user" then "assistant" else "user")) = true := by
        have h := htail
        rw [altChain, Bool.and_eq_true] at h
        exact h.1
      have hne : a.role ≠ b.role := by
        simp only [beq_iff_eq] at ha hb
        rcases hr with rfl | rfl <;> simp_all
      have htail' : hasConsecDup (b :: rest') = false :=
        ih (if r == "user" then "assistant" else "user")
          (by rcases hr with rfl | rfl <;> simp) htail
      simp [hasConsecDup, hne, htail']

theorem StrictAlt_head_user (m : ApiMsg) (rest : List ApiMsg)
    (h : StrictAlt (m :: rest) = true) : m.role = "user" := by
  simp only [StrictAlt, altChain, Bool.and_eq_true, beq_iff_eq] at h
  exact h.1

end AgFin

/-- Claim C6: `prepare_for_api` returns the formatted/truncated/appended
message list exactly when that list strictly alternates roles starting with
`user`; a would-be output with two consecutive messages of the same role,
or a nonempty one not starting with `user`, makes preparation fail with a
`ValueError` (modelled as `Except.error`) instead of being silently fixed. -/
theorem claim_C6_alternation (cfg : HistCfg) (messages : List RawMsg)
    (new_user_message : Option String) (auto_truncate : Bool) :
    (prepare_for_api cfg messages new_user_message auto_truncate =
        .ok (preparedList cfg messages new_user_message auto_truncate)
      ↔ StrictAlt (preparedList cfg messages new_user_message auto_truncate) = true)
    ∧ (∀ l, prepare_for_api cfg messages new_user_message auto_truncate = .ok l →
        l = preparedList cfg messages new_user_message auto_truncate
        ∧ StrictAlt l = true)
    ∧ (hasConsecDup (preparedList cfg messages new_user_message auto_truncate) = true →
        (prepare_for_api cfg messages new_user_message auto_truncate).isOk = false)
    ∧ (∀ m ms, preparedList cfg messages new_user_message auto_truncate = m :: ms →
        m.role ≠ "user" →
        (prepare_for_api cfg messages new_user_message auto_truncate).isOk = false) := by
  have hfst := validate_alternation_fst (preparedList cfg messages new_user_message auto_truncate)
  have hcore : (StrictAlt (preparedList cfg messages new_user_message auto_truncate) = true
        ∧ prepare_for_api cfg messages new_user_message auto_truncate =
            .ok (preparedList cfg messages new_user_message auto_truncate))
      ∨ (StrictAlt (preparedList cfg messages new_user_message auto_truncate) = false
        ∧ (prepare_for_api cfg messages new_user_message auto_truncate).isOk = false
        ∧ ∀ l, prepare_for_api cfg messages new_user_message auto_truncate ≠ .ok l) := by
    unfold prepare_for_api
    rw [show (validate_alternation (preparedList cfg messages new_user_message auto_truncate)) =
        ((validate_alternation (preparedList cfg messages new_user_message auto_truncate)).1,
         (validate_alternation (preparedList cfg messages new_user_message auto_truncate)).2)
      from rfl, hfst]
    cases hb : StrictAlt (preparedList cfg messages new_user_message auto_truncate)
    · right
      refine ⟨rfl, rfl, ?_⟩
      intro l h
      exact Except.noConfusion h
    · left; exact ⟨rfl, rfl⟩
  rcases hcore with ⟨hT, hok⟩ | ⟨hF, hnotok, hne⟩
  · refine ⟨⟨fun _ => hT, fun _ => hok⟩, ?_, ?_, ?_⟩
    · intro l hl
      rw [hok] at hl
      cases hl
      exact ⟨rfl, hT⟩
    · intro hdup
      have := altChain_no_dup (preparedList cfg messages new_user_message auto_truncate)
        "user" (Or.inl rfl) hT
      rw [this] at hdup
      exact Bool.noConfusion hdup
    · intro m ms hcons hrole
      rw [hcons] at hT
      exact absurd (StrictAlt_head_user m ms hT) hrole
  · refine ⟨⟨?_, ?_⟩, ?_, fun _ => hnotok, fun _ _ _ _ => hnotok⟩
    · intro h
      exact absurd h (hne _)
    · intro h
      rw [h] at hF
      exact Bool.noConfusion hF
    · intro l hl
      exact absurd hl (hne _)

/-- Witness for C6: two consecutive `user` messages make `prepare_for_api`
fail instead of reaching the LLM boundary. -/
theorem claim_C6_alternation_witness :
    (prepare_for_api ⟨150000⟩
      [⟨some "user", some "hello"⟩, ⟨some "user", some "again"⟩] none true).isOk
      = false := by
  exact (claim_C6_alternation ⟨150000⟩
    [⟨some "user", some "hello"⟩, ⟨some "user", some "again"⟩] none true).2.2.1 (by rfl)

namespace AgFin

theorem truncGo_le (cfg : HistCfg) :
    ∀ (rem t : List RawMsg), estimateTokens t ≤ cfg.max_tokens →
      estimateTokens (truncGo cfg rem t) ≤ cfg.max_tokens := by
  intro rem
  induction rem with
  | nil => intro t ht; simpa [truncGo] using ht
  | cons m rest ih =>
    intro t ht
    simp only [truncGo]
    by_cases h : estimateTokens (m :: t) ≤ cfg.max_tokens
    · rw [if_pos h]
      exact ih (m :: t) h
    · rw [if_neg h]
      exact ht

theorem truncGo_char (cfg : HistCfg) :
    ∀ (rem t : List RawMsg), ∃ j, j ≤ rem.length ∧
      truncGo cfg rem t = (rem.take j).reverse ++ t ∧
      (∀ i, i < j → estimateTokens ((rem.take (i + 1)).reverse ++ t) ≤ cfg.max_tokens) ∧
      (j < rem.length →
        estimateTokens ((rem.take (j + 1)).reverse ++ t) > cfg.max_tokens) := by
  intro rem
  induction rem with
  | nil =>
    intro t
    exact ⟨0, Nat.le_refl 0, by simp [truncGo], fun i hi => absurd hi (Nat.not_lt_zero i),
      fun h => absurd h (Nat.lt_irrefl 0)⟩
  | cons m rest ih =>
    intro t
    by_cases h : estimateTokens (m :: t) ≤ cfg.max_tokens
    · obtain ⟨j, hj, heq, hall, hstop⟩ := ih (m :: t)
      refine ⟨j + 1, Nat.succ_le_succ hj, ?_, ?_, ?_⟩
      · simp only [truncGo]
        rw [if_pos h, heq]
        simp [List.take_succ_cons, List.reverse_cons, List.append_assoc]
      · intro i hi
        cases i with
        | zero => simpa using h
        | succ i' =>
          have := hall i' (by omega)
          simpa [List.take_succ_cons, List.reverse_cons, List.append_assoc] using this
      · intro hlt
        have := hstop (by simpa using Nat.lt_of_succ_lt_succ hlt)
        simpa [List.take_succ_cons, List.reverse_cons, List.append_assoc] using this
    · refine ⟨0, Nat.zero_le _, ?_, fun i hi => absurd hi (Nat.not_lt_zero i), ?_⟩
      · simp only [truncGo]
        rw [if_neg h]
        simp
      · intro _
        simpa using Nat.lt_of_not_le h

end AgFin

/-- Claim C5 (amended): on a message list whose estimated token size
exceeds the budget, `truncate_to_fit` (a) always keeps the most recent
`keep_most_recent` messages verbatim, (b) returns a contiguous suffix of
the input obtained by greedily prepending older messages and stopping at
the first that would exceed the budget, and (c) keeps the estimated size of
the output within the budget provided the kept most-recent window itself
fits the budget — the window is kept unconditionally, so when it alone
exceeds the budget the output does too. -/
theorem claim_C5_truncation (max_tokens keep : Nat) (messages : List RawMsg)
    (hk : 1 ≤ keep) (hover : estimateTokens messages > max_tokens) :
    (messages.drop (messages.length - keep) <:+ truncate_to_fit ⟨max_tokens⟩ messages keep)
    ∧ (truncate_to_fit ⟨max_tokens⟩ messages keep <:+ messages)
    ∧ (estimateTokens (messages.drop (messages.length - keep)) ≤ max_tokens →
        estimateTokens (truncate_to_fit ⟨max_tokens⟩ messages keep) ≤ max_tokens)
    ∧ ∃ k, truncate_to_fit ⟨max_tokens⟩ messages keep = messages.drop k
        ∧ k ≤ messages.length - keep
        ∧ (∀ j, k ≤ j → j < messages.length - keep →
            estimateTokens (messages.drop j) ≤ max_tokens)
        ∧ (0 < k → estimateTokens (messages.drop (k - 1)) > max_tokens) := by
  have hne : messages.isEmpty = false := by
    cases messages with
    | nil => simp [estimateTokens] at hover
    | cons a l => rfl
  have hnest : ¬ estimateTokens messages ≤ max_tokens := Nat.not_le.mpr hover
  have hk0 : (keep == 0) = false := by
    cases keep with
    | zero => omega
    | succ n => rfl
  by_cases hlen : messages.length > keep
  · -- long history: kept window plus greedy prefix
    have hunfold : truncate_to_fit ⟨max_tokens⟩ messages keep =
        truncGo ⟨max_tokens⟩ (messages.take (messages.length - keep)).reverse
          (messages.drop (messages.length - keep)) := by
      simp only [truncate_to_fit, hne, hk0, hlen]
      rw [if_neg hnest]
      simp
    obtain ⟨j, hj, heq, hall, hstop⟩ :=
      truncGo_char ⟨max_tokens⟩ (messages.take (messages.length - keep)).reverse
        (messages.drop (messages.length - keep))
    have hrlen : (messages.take (messages.length - keep)).length = messages.length - keep := by
      simp [List.length_take]
    have hrevlen : ((messages.take (messages.length - keep)).reverse).length =
        messages.length - keep := by
      simp [hrlen]
    have hconv : ∀ n, (((messages.take (messages.length - keep)).reverse.take n).reverse) =
        (messages.take (messages.length - keep)).drop
          ((messages.length - keep) - n) := by
      intro n
      rw [List.take_reverse, List.reverse_reverse, hrlen]
    have hsplit : messages.take (messages.length - keep) ++
        messages.drop (messages.length - keep) = messages := List.take_append_drop _ _
    have hdrop : ∀ q, q ≤ messages.length - keep →
        (messages.take (messages.length - keep)).drop q ++
          messages.drop (messages.length - keep) = messages.drop q := by
      intro q hq
      conv_rhs => rw [← hsplit]
      rw [List.drop_append_eq_append_drop, hrlen, Nat.sub_eq_zero_of_le hq, List.drop_zero]
    rw [hrevlen] at hj hstop
    -- the result as a single drop
    have hres : truncate_to_fit ⟨max_tokens⟩ messages keep =
        messages.drop ((messages.length - keep) - j) := by
      rw [hunfold, heq, hconv j]
      exact hdrop _ (Nat.sub_le _ _)
    refine ⟨?_, ?_, ?_, ?_⟩
    · rw [hunfold, heq]
      exact ⟨_, rfl⟩
    · rw [hres]
      exact List.drop_suffix _ _
    · intro hkept
      rw [hunfold]
      exact AgFin.truncGo_le ⟨max_tokens⟩ _ _ hkept
    · refine ⟨(messages.length - keep) - j, hres, Nat.sub_le _ _, ?_, ?_⟩
      · intro q hq1 hq2
        have hj1 : 1 ≤ j := by omega
        have hi : (messages.length - keep) - 1 - q < j := by omega
        have := hall ((messages.length - keep) - 1 - q) hi
        rw [hconv (((messages.length - keep) - 1 - q) + 1)] at this
        have harith : (messages.length - keep) - (((messages.length - keep) - 1 - q) + 1) = q := by
          omega
        rw [harith, hdrop q (by omega)] at this
        exact this
      · intro hkpos
        have hjlt : j < messages.length - keep := by omega
        have := hstop hjlt
        rw [hconv (j + 1)] at this
        have harith : (messages.length - keep) - (j + 1) =
            ((messages.length - keep) - j) - 1 := by omega
        rw [harith, hdrop _ (by omega)] at this
        exact this
  · -- short history: everything is kept
    have hout : truncate_to_fit ⟨max_tokens⟩ messages keep = messages := by
      simp only [truncate_to_fit, hne, hk0]
      rw [if_neg hnest]
      simp only [if_neg hlen]
      rfl
    have hz : messages.length - keep = 0 := by omega
    refine ⟨?_, ?_, ?_, ?_⟩
    · rw [hout, hz, List.drop_zero]
    · rw [hout]
    · intro h
      rw [hout]
      rw [hz, List.drop_zero] at h
      exact h
    · exact ⟨0, by rw [hout, List.drop_zero], by omega,
        fun q h1 h2 => absurd h2 (by omega), fun h => absurd h (by omega)⟩

/-- Counterexample to claim C5 as stated: eleven 4-character messages
against a budget of 1 token exceed the budget, and the truncated output —
the unconditionally kept 10 most recent messages — still estimates to 10
tokens, above the budget. -/
theorem claim_C5_truncation_cex :
    estimateTokens (List.replicate 11 (⟨some "user", some "aaaa"⟩ : RawMsg)) > 1
    ∧ truncate_to_fit ⟨1⟩ (List.replicate 11 (⟨some "user", some "aaaa"⟩ : RawMsg)) 10 =
        (List.replicate 11 (⟨some "user", some "aaaa"⟩ : RawMsg)).drop 1
    ∧ estimateTokens
        (truncate_to_fit ⟨1⟩ (List.replicate 11 (⟨some "user", some "aaaa"⟩ : RawMsg)) 10)
      > 1 := by
  refine ⟨by decide, by rfl, by decide⟩

/-- Witness for C5: twelve 4-character messages against a budget of 10:
the most recent 10 fit exactly, so the output stays within the budget and
ends with that window. -/
theorem claim_C5_truncation_witness :
    estimateTokens
        (truncate_to_fit ⟨10⟩ (List.replicate 12 (⟨some "user", some "aaaa"⟩ : RawMsg)) 10)
      ≤ 10
    ∧ (List.replicate 12 (⟨some "user", some "aaaa"⟩ : RawMsg)).drop 2 <:+
        truncate_to_fit ⟨10⟩ (List.replicate 12 (⟨some "user", some "aaaa"⟩ : RawMsg)) 10 := by
  have h := claim_C5_truncation 10 10
    (List.replicate 12 (⟨some "user", some "aaaa"⟩ : RawMsg)) (by decide) (by decide)
  exact ⟨h.2.2.1 (by decide), h.1⟩

/-- Claim C1: for a non-terminal application, a confirmed
`certify_application` call with at least one failing validation check
returns every failing check's message together in the single
`validation_failures` list — the checks never short-circuit — and leaves
the database (application status included) unchanged. -/
theorem claim_C1_certification_gate (db : DB) (now : String)
    (application_id : Option String) (ctx : Option Ctx) (target : String)
    (app : Application)
    (hres : resolveAppId application_id ctx = some target)
    (happ : db.applications.find? (fun a => a.id == target) = some app)
    (hauth : ctxUser ctx = "" ∨ app.user_id = ctxUser ctx)
    (hst1 : app.status ≠ "approved") (hst2 : app.status ≠ "rejected")
    (hfail : certifyFailures db target ≠ []) :
    certify_application db now true application_id ctx =
      (validationFailedJson app (certifyFailures db target), db)
    ∧ (docStatusCount (db.documents.filter (fun d => d.application_id == target)) "pending" > 0 →
        (toString (docStatusCount (db.documents.filter (fun d => d.application_id == target)) "pending")
          ++ " document(s) still pending processing") ∈ certifyFailures db target)
    ∧ (docStatusCount (db.documents.filter (fun d => d.application_id == target)) "processing" > 0 →
        (toString (docStatusCount (db.documents.filter (fun d => d.application_id == target)) "processing")
          ++ " document(s) currently being processed") ∈ certifyFailures db target)
    ∧ (docStatusCount (db.documents.filter (fun d => d.application_id == target)) "error" > 0 →
        (toString (docStatusCount (db.documents.filter (fun d => d.application_id == target)) "error")
          ++ " document(s) failed processing") ∈ certifyFailures db target)
    ∧ (missingModules db target ≠ [] →
        ("Missing required modules: " ++ String.intercalate ", "
            ((missingModules db target).map
              (fun m => "Module " ++ toString m ++ " (" ++ moduleLongName m ++ ")")))
          ∈ certifyFailures db target)
    ∧ (flaggedCount db target > 0 →
        (toString (flaggedCount db target)
          ++ " field(s) flagged for audit - must be reviewed before certification")
          ∈ certifyFailures db target)
    ∧ (db.documents.filter (fun d => d.application_id == target) = [] →
        "No documents uploaded - at least one document is required"
          ∈ certifyFailures db target) := by
  have hauthb : (ctxUser ctx != "" && app.user_id != ctxUser ctx) = false := by
    rcases hauth with h | h <;> simp [h]
  have hstb : (app.status == "approved" || app.status == "rejected") = false := by
    simp [hst1, hst2]
  have hfb : (certifyFailures db target).isEmpty = false :=
    List.isEmpty_eq_false.mpr hfail
  refine ⟨?_, ?_, ?_, ?_, ?_, ?_, ?_⟩
  · simp [certify_application, hres, happ, hauthb, hstb, hfb]
  · intro h
    simp [certifyFailures, certifyDocStatusFailures, h]
  · intro h
    simp [certifyFailures, certifyDocStatusFailures, h]
  · intro h
    simp [certifyFailures, certifyDocStatusFailures, h]
  · intro h
    have hm : (missingModules db target).isEmpty = false := List.isEmpty_eq_false.mpr h
    simp [certifyFailures, certifyModuleFailures, hm]
  · intro h
    simp [certifyFailures, certifyFlaggedFailures, h]
  · intro h
    simp [certifyFailures, certifyNoDocFailures, h]

/-- The application of the concrete certification-gate scenario:
draft, owned by `u1`. -/
def exApp1 : Application :=
  ⟨"a1", "u1", "draft", "organic", none, "t0", "t0"⟩

/-- A database realising the spec's gate-completeness scenario: one pending
document, modules 4 and 5 missing, and one audit-flagged field. -/
def exDB1 : DB where
  applications := [exApp1]
  documents := [⟨"d1", "a1", "tax_document", "tax.pdf", "pending", none, none⟩]
  module_data :=
    [⟨1, "a1", 1, "financial", "total_revenue", .str "125000", "ocr_extracted", 1, "t0"⟩,
     ⟨2, "a1", 2, "compliance", "license", .str "L-1", "ocr_extracted", 1, "t0"⟩,
     ⟨3, "a1", 3, "operations", "farm_size",
      .obj [("_value", .str "12"), ("_audit_flagged", .bool true),
            ("_audit_reason", .str "low OCR confidence"),
            ("_audit_requested_at", .str "t0")],
      "ocr_extracted", 1, "t0"⟩]
  audit_trail := []
  next_module_id := 4

/-- Witness for C1: the scenario of the spec (one pending document, two
missing modules, one flagged field) reports all three failure classes in
one `validation_failures` list and leaves the database unchanged. -/
theorem claim_C1_certification_gate_witness :
    certify_application exDB1 "T1" true (some "a1") (some ⟨some "u1", some "a1"⟩) =
      (validationFailedJson exApp1 (certifyFailures exDB1 "a1"), exDB1)
    ∧ "1 document(s) still pending processing" ∈ certifyFailures exDB1 "a1"
    ∧ "Missing required modules: Module 4 (Sustainability Practices), Module 5 (Risk Management)"
        ∈ certifyFailures exDB1 "a1"
    ∧ "1 field(s) flagged for audit - must be reviewed before certification"
        ∈ certifyFailures exDB1 "a1" := by
  have h := claim_C1_certification_gate exDB1 "T1" (some "a1") (some ⟨some "u1", some "a1"⟩)
    "a1" exApp1 rfl rfl (Or.inr rfl) (by decide) (by decide) (by decide)
  refine ⟨h.1, ?_, ?_, ?_⟩
  · simpa using h.2.1 (by decide)
  · simpa using h.2.2.2.2.1 (by decide)
  · simpa using h.2.2.2.2.2.1 (by decide)

namespace AgFin

theorem find?_map_of_pred_inv {α : Type} (l : List α) (p : α → Bool) (f : α → α)
    (h : ∀ a, p (f a) = p a) : (l.map f).find? p = (l.find? p).map f := by
  rw [List.find?_map]
  have hpf : p ∘ f = p := funext h
  rw [hpf]

end AgFin

/-- The application of the all-checks-pass certification scenario. -/
def exApp2 : Application :=
  ⟨"a2", "u2", "in_progress", "organic", some "initial note", "t0", "t0"⟩

/-- A database on which every certification validation check passes: one
completed document, all five modules populated, nothing flagged. -/
def exDB2 : DB where
  applications := [exApp2]
  documents := [⟨"d2", "a2", "tax_document", "tax.pdf", "completed",
    some (.obj [("fields", .arr [])]), none⟩]
  module_data :=
    [⟨1, "a2", 1, "financial", "total_revenue", .str "125000", "ocr_extracted", 1, "t0"⟩,
     ⟨2, "a2", 2, "compliance", "license", .str "L-1", "proxy_entered", 1, "t0"⟩,
     ⟨3, "a2", 3, "operations", "farm_size", .str "12", "proxy_entered", 1, "t0"⟩,
     ⟨4, "a2", 4, "sustainability", "water_use", .str "low", "proxy_entered", 1, "t0"⟩,
     ⟨5, "a2", 5, "risk", "insurance", .str "yes", "proxy_entered", 1, "t0"⟩]
  audit_trail := []
  next_module_id := 6

/-- Counterexample to claim C3 as stated: with no `user_id` in the session
context, a fully valid certification still succeeds (status approved) but
writes no audit-trail entry at all — the insert is gated on `if user_id:`. -/
theorem claim_C3_certify_success_cex :
    (certify_application exDB2 "T2" true (some "a2") none).1.getKey "success"
      = some (.bool true)
    ∧ (certify_application exDB2 "T2" true (some "a2") none).1.getKey "status"
      = some (.str "approved")
    ∧ (certify_application exDB2 "T2" true (some "a2") none).2.audit_trail = [] := by
  exact ⟨rfl, rfl, rfl⟩

/-- Claim C3 (amended): when every validation check passes (the
`validation_failures` list is empty), `certify_application` sets the status
to `approved`, appends a note carrying the certification timestamp, returns
a stub certificate location, and writes exactly one audit-trail entry when
a `user_id` is available from the session context (and none otherwise);
when any check fails it performs no write at all. -/
theorem claim_C3_certify_success (db : DB) (now : String)
    (application_id : Option String) (ctx : Option Ctx) (target : String)
    (app : Application)
    (hres : resolveAppId application_id ctx = some target)
    (happ : db.applications.find? (fun a => a.id == target) = some app)
    (hauth : ctxUser ctx = "" ∨ app.user_id = ctxUser ctx)
    (hst1 : app.status ≠ "approved") (hst2 : app.status ≠ "rejected") :
    (certifyFailures db target = [] →
      ((certify_application db now true application_id ctx).1.getKey "success"
          = some (.bool true)
        ∧ (certify_application db now true application_id ctx).1.getKey "status"
          = some (.str "approved")
        ∧ (certify_application db now true application_id ctx).1.getKey "certified_at"
          = some (.str now)
        ∧ (certify_application db now true application_id ctx).1.getKey "pdf_url"
          = some (.str ("/api/applications/" ++ target ++ "/certificate.pdf")))
      ∧ (certify_application db now true application_id ctx).2.applications.find?
          (fun a => a.id == target) =
            some { app with status := "approved",
                            updated_at := now,
                            notes := some ((app.notes.getD "") ++ "\n\nCertified at: " ++ now) }
      ∧ (certify_application db now true application_id ctx).2.audit_trail =
          db.audit_trail ++
            (if ctxUser ctx != "" then [certifyAuditRow target (ctxUser ctx) app now] else [])
      ∧ ((certify_application db now true application_id ctx).2.documents = db.documents
        ∧ (certify_application db now true application_id ctx).2.module_data = db.module_data))
    ∧ (certifyFailures db target ≠ [] →
        (certify_application db now true application_id ctx).2 = db) := by
  have hauthb : (ctxUser ctx != "" && app.user_id != ctxUser ctx) = false := by
    rcases hauth with h | h <;> simp [h]
  have hstb : (app.status == "approved" || app.status == "rejected") = false := by
    simp [hst1, hst2]
  have happid : (app.id == target) = true := by
    have h := happ
    rw [List.find?_eq_some] at h
    exact h.1
  constructor
  · intro hpass
    have hfb : (certifyFailures db target).isEmpty = true := by
      simp [hpass]
    have hrun : certify_application db now true application_id ctx =
        certifySuccess db now target (ctxUser ctx) app := by
      simp [certify_application, hres, happ, hauthb, hstb, hfb]
    refine ⟨⟨?_, ?_, ?_, ?_⟩, ?_, ?_, ?_, ?_⟩
    · rw [hrun]; rfl
    · rw [hrun]; rfl
    · rw [hrun]; rfl
    · rw [hrun]; rfl
    · rw [hrun]
      show (db.applications.map _).find? _ = _
      rw [AgFin.find?_map_of_pred_inv _ _ _
        (fun a => by
          by_cases ha : (a.id == target) = true
          · simp [ha]
          · simp [ha]), happ]
      simp only [Option.map_some']
      rw [if_pos happid]
    · rw [hrun]
      by_cases huid : (ctxUser ctx != "") = true
      · simp [certifySuccess, huid]
      · simp only [Bool.not_eq_true] at huid
        simp [certifySuccess, huid]
    · rw [hrun]; rfl
    · rw [hrun]; rfl
  · intro hfail
    have hfb : (certifyFailures db target).isEmpty = false :=
      List.isEmpty_eq_false.mpr hfail
    simp [certify_application, hres, happ, hauthb, hstb, hfb]

/-- Witness for C3: the same valid application certified with a `user_id`
in the session context gets exactly one audit-trail row. -/
theorem claim_C3_certify_success_witness :
    (certify_application exDB2 "T2" true (some "a2")
        (some ⟨some "u2", none⟩)).1.getKey "success" = some (.bool true)
    ∧ (certify_application exDB2 "T2" true (some "a2")
        (some ⟨some "u2", none⟩)).2.audit_trail =
      [certifyAuditRow "a2" "u2" exApp2 "T2"] := by
  have h := claim_C3_certify_success exDB2 "T2" (some "a2") (some ⟨some "u2", none⟩)
    "a2" exApp2 rfl rfl (Or.inr rfl) (by decide) (by decide)
  have h1 := h.1 (by decide)
  refine ⟨h1.1.1, ?_⟩
  have := h1.2.2.1
  simpa using this

/-- Claim C10: the document gate of `certify_application` counts only the
statuses `pending`, `processing` and `error`; the status `failed` — the one
the `extract_fields` path uses to represent OCR failure — contributes no
validation failure, so an application whose documents all have status
`failed` passes the document checks (including the at-least-one-document
check) and is blocked, if at all, only by the module and audit-flag checks. -/
theorem claim_C10_failed_status_gap (db : DB) (now : String)
    (application_id : Option String) (ctx : Option Ctx) (target : String)
    (app : Application)
    (hres : resolveAppId application_id ctx = some target)
    (happ : db.applications.find? (fun a => a.id == target) = some app)
    (hauth : ctxUser ctx = "" ∨ app.user_id = ctxUser ctx)
    (hst1 : app.status ≠ "approved") (hst2 : app.status ≠ "rejected")
    (hne : db.documents.filter (fun d => d.application_id == target) ≠ [])
    (hall : ∀ d ∈ db.documents.filter (fun d => d.application_id == target),
      d.extraction_status = "failed") :
    certifyFailures db target =
      certifyModuleFailures db target ++ certifyFlaggedFailures db target
    ∧ (certifyModuleFailures db target = [] → certifyFlaggedFailures db target = [] →
        (certify_application db now true application_id ctx).1.getKey "success"
          = some (.bool true))
    ∧ (∀ did d, db.documents.find? (fun x => x.id == did) = some d →
        d.application_id = target →
        (extract_fields db did none ctx).1.getKey "error" = some (.str "ocr_failed")) := by
  have hcnt : ∀ st, st ≠ "failed" →
      docStatusCount (db.documents.filter (fun d => d.application_id == target)) st = 0 := by
    intro st hst
    simp only [docStatusCount, List.length_eq_zero, List.filter_eq_nil_iff]
    intro d hd
    have hds := hall d hd
    simp only [hds, beq_iff_eq]
    exact fun h => hst h.symm
  have hdocf : certifyDocStatusFailures
      (db.documents.filter (fun d => d.application_id == target)) = [] := by
    simp [certifyDocStatusFailures, hcnt "pending" (by decide), hcnt "processing" (by decide),
      hcnt "error" (by decide)]
  have hnodocf : certifyNoDocFailures
      (db.documents.filter (fun d => d.application_id == target)) = [] := by
    have : (db.documents.filter (fun d => d.application_id == target)).length ≠ 0 := by
      simpa [List.length_eq_zero] using hne
    simp [certifyNoDocFailures, this]
  have hmain : certifyFailures db target =
      certifyModuleFailures db target ++ certifyFlaggedFailures db target := by
    simp [certifyFailures, hdocf, hnodocf]
  refine ⟨hmain, ?_, ?_⟩
  · intro hM hF
    have hpass : certifyFailures db target = [] := by
      rw [hmain, hM, hF]
      rfl
    have hauthb : (ctxUser ctx != "" && app.user_id != ctxUser ctx) = false := by
      rcases hauth with h | h <;> simp [h]
    have hstb : (app.status == "approved" || app.status == "rejected") = false := by
      simp [hst1, hst2]
    have hfb : (certifyFailures db target).isEmpty = true := by simp [hpass]
    have hrun : certify_application db now true application_id ctx =
        certifySuccess db now target (ctxUser ctx) app := by
      simp [certify_application, hres, happ, hauthb, hstb, hfb]
    rw [hrun]
    rfl
  · intro did d hfind happd
    have hdmem : d ∈ db.documents := List.mem_of_find?_eq_some hfind
    have hdfilt : d ∈ db.documents.filter (fun d => d.application_id == target) := by
      rw [List.mem_filter]
      exact ⟨hdmem, by simp [happd]⟩
    have hfailed : d.extraction_status = "failed" := hall d hdfilt
    have hauthb : (ctxUser ctx != "" && app.user_id != ctxUser ctx) = false := by
      rcases hauth with h | h <;> simp [h]
    simp [extract_fields, hfind, happd, happ, hauthb, hfailed, Json.getKey, Json.lookupKey]

/-- The application of the all-documents-failed scenario. -/
def exApp3 : Application :=
  ⟨"a3", "u3", "draft", "organic", none, "t0", "t0"⟩

/-- A database whose only document has extraction status `failed`, with all
five modules populated and nothing flagged. -/
def exDB3 : DB where
  applications := [exApp3]
  documents := [⟨"d3", "a3", "financial_statement", "scan.pdf", "failed",
    some (.obj [("error", .str "illegible scan")]), none⟩]
  module_data :=
    [⟨1, "a3", 1, "financial", "total_revenue", .str "125000", "ocr_extracted", 1, "t0"⟩,
     ⟨2, "a3", 2, "compliance", "license", .str "L-1", "proxy_entered", 1, "t0"⟩,
     ⟨3, "a3", 3, "operations", "farm_size", .str "12", "proxy_entered", 1, "t0"⟩,
     ⟨4, "a3", 4, "sustainability", "water_use", .str "low", "proxy_entered", 1, "t0"⟩,
     ⟨5, "a3", 5, "risk", "insurance", .str "yes", "proxy_entered", 1, "t0"⟩]
  audit_trail := []
  next_module_id := 6

/-- Witness for C10: an application whose only document failed OCR is
certified successfully, while `extract_fields` on that same document
reports `ocr_failed`. -/
theorem claim_C10_failed_status_gap_witness :
    (certify_application exDB3 "T3" true (some "a3")
        (some ⟨some "u3", some "a3"⟩)).1.getKey "success" = some (.bool true)
    ∧ (extract_fields exDB3 "d3" none
        (some ⟨some "u3", some "a3"⟩)).1.getKey "error" = some (.str "ocr_failed") := by
  have h := claim_C10_failed_status_gap exDB3 "T3" (some "a3")
    (some ⟨some "u3", some "a3"⟩) "a3" exApp3 rfl rfl (Or.inr rfl)
    (by decide) (by decide)
    (by
      intro h
      have h' : ([⟨"d3", "a3", "financial_statement", "scan.pdf", "failed",
          some (.obj [("error", .str "illegible scan")]), none⟩] : List Document) = [] := h
      exact absurd h' (List.cons_ne_nil _ _))
    (by decide)
  exact ⟨h.2.1 rfl rfl,
    h.2.2 "d3" ⟨"d3", "a3", "financial_statement", "scan.pdf", "failed",
      some (.obj [("error", .str "illegible scan")]), none⟩ rfl rfl⟩

namespace AgFin

theorem update_module_insert (db : DB) (now : String) (module_number : Nat)
    (fid v : String) (application_id : Option String) (ctx : Option Ctx)
    (target mname : String) (app : Application)
    (hmod : moduleShortName module_number = some mname)
    (hres : resolveAppId application_id ctx = some target)
    (happ : db.applications.find? (fun a => a.id == target) = some app)
    (hauth : ctxUser ctx = "" ∨ app.user_id = ctxUser ctx)
    (hst1 : app.status ≠ "approved") (hst2 : app.status ≠ "rejected")
    (hkey : db.module_data.find? (moduleKey target mname fid) = none) :
    update_module db now module_number fid v application_id ctx =
      (updateModuleSuccessJson fid mname module_number none v "proxy_entered",
       ⟨db.applications.map (fun a => if a.id == target then { a with updated_at := now } else a),
        db.documents,
        db.module_data ++ [⟨db.next_module_id, target, module_number, mname, fid, Json.str v,
          "proxy_entered", 1, now⟩],
        db.audit_trail, db.next_module_id + 1⟩) := by
  have hauthb : (ctxUser ctx != "" && app.user_id != ctxUser ctx) = false := by
    rcases hauth with h | h <;> simp [h]
  have hstb : (app.status == "approved" || app.status == "rejected") = false := by
    simp [hst1, hst2]
  simp [update_module, hmod, hres, happ, hauthb, hstb, hkey]

theorem update_module_overwrite (db : DB) (now : String) (module_number : Nat)
    (fid v : String) (application_id : Option String) (ctx : Option Ctx)
    (target mname : String) (app : Application) (row : ModuleRow)
    (hmod : moduleShortName module_number = some mname)
    (hres : resolveAppId application_id ctx = some target)
    (happ : db.applications.find? (fun a => a.id == target) = some app)
    (hauth : ctxUser ctx = "" ∨ app.user_id = ctxUser ctx)
    (hst1 : app.status ≠ "approved") (hst2 : app.status ≠ "rejected")
    (hkey : db.module_data.find? (moduleKey target mname fid) = some row) :
    update_module db now module_number fid v application_id ctx =
      (updateModuleSuccessJson fid mname module_number (some row.value) v "proxy_edited",
       ⟨db.applications.map (fun a => if a.id == target then { a with updated_at := now } else a),
        db.documents,
        db.module_data.map (fun r =>
          if r.id == row.id then
            { r with value := Json.str v, data_source := "proxy_edited",
                     confidence_score := 1, updated_at := now }
          else r),
        db.audit_trail, db.next_module_id⟩) := by
  have hauthb : (ctxUser ctx != "" && app.user_id != ctxUser ctx) = false := by
    rcases hauth with h | h <;> simp [h]
  have hstb : (app.status == "approved" || app.status == "rejected") = false := by
    simp [hst1, hst2]
  simp [update_module, hmod, hres, happ, hauthb, hstb, hkey]

end AgFin

/-- Claim C7: on an unlocked application, two `update_module` calls with
the same (application, module number, field id) key leave exactly one
stored row for that key.  The first call on an absent field inserts it with
`data_source = proxy_entered` and reports `old_value = null`; the second
call overwrites in place with `data_source = proxy_edited`, confidence
pinned to 1.0, and reports as `old_value` exactly the value the first call
wrote. -/
theorem claim_C7_idempotent_upsert (db : DB) (now1 now2 : String) (module_number : Nat)
    (fid v1 v2 : String) (application_id : Option String) (ctx : Option Ctx)
    (target mname : String) (app : Application)
    (hmod : moduleShortName module_number = some mname)
    (hres : resolveAppId application_id ctx = some target)
    (happ : db.applications.find? (fun a => a.id == target) = some app)
    (hauth : ctxUser ctx = "" ∨ app.user_id = ctxUser ctx)
    (hst1 : app.status ≠ "approved") (hst2 : app.status ≠ "rejected")
    (hbound : ∀ r ∈ db.module_data, r.id < db.next_module_id)
    (habsent : db.module_data.filter (moduleKey target mname fid) = []) :
    (update_module db now1 module_number fid v1 application_id ctx).1.getKey "data_source"
      = some (.str "proxy_entered")
    ∧ (update_module db now1 module_number fid v1 application_id ctx).1.getKey "old_value"
      = some .null
    ∧ ((update_module db now1 module_number fid v1 application_id ctx).2.module_data.filter
          (moduleKey target mname fid)).map
        (fun r => (r.value, r.data_source, r.confidence_score))
      = [(Json.str v1, "proxy_entered", (1 : Rat))]
    ∧ (update_module (update_module db now1 module_number fid v1 application_id ctx).2
          now2 module_number fid v2 application_id ctx).1.getKey "data_source"
      = some (.str "proxy_edited")
    ∧ (update_module (update_module db now1 module_number fid v1 application_id ctx).2
          now2 module_number fid v2 application_id ctx).1.getKey "old_value"
      = some (.str v1)
    ∧ ((update_module (update_module db now1 module_number fid v1 application_id ctx).2
          now2 module_number fid v2 application_id ctx).2.module_data.filter
            (moduleKey target mname fid)).map
        (fun r => (r.value, r.data_source, r.confidence_score))
      = [(Json.str v2, "proxy_edited", (1 : Rat))] := by
  have hkeynone : db.module_data.find? (moduleKey target mname fid) = none :=
    List.find?_eq_none.mpr (fun r hr => by
      have := List.filter_eq_nil_iff.mp habsent r hr
      simpa using this)
  have happid : (app.id == target) = true := by
    have h := happ
    rw [List.find?_eq_some] at h
    exact h.1
  have h1 := update_module_insert db now1 module_number fid v1 application_id ctx
    target mname app hmod hres happ hauth hst1 hst2 hkeynone
  have hnewkey : moduleKey target mname fid
      ⟨db.next_module_id, target, module_number, mname, fid, Json.str v1,
        "proxy_entered", 1, now1⟩ = true := by
    simp [moduleKey]
  have happ1 : ((update_module db now1 module_number fid v1 application_id ctx).2).applications.find?
      (fun a => a.id == target) = some { app with updated_at := now1 } := by
    rw [h1]
    show (db.applications.map _).find? _ = _
    rw [find?_map_of_pred_inv _ _ _
      (fun a => by
        by_cases ha : (a.id == target) = true
        · simp [ha]
        · simp [ha]), happ]
    simp only [Option.map_some']
    rw [if_pos happid]
  have hkey1 : ((update_module db now1 module_number fid v1 application_id ctx).2).module_data.find?
      (moduleKey target mname fid) =
        some ⟨db.next_module_id, target, module_number, mname, fid, Json.str v1,
          "proxy_entered", 1, now1⟩ := by
    rw [h1]
    show (db.module_data ++ _).find? _ = _
    rw [List.find?_append, hkeynone]
    simp [List.find?, hnewkey]
  have h2 := update_module_overwrite
    ((update_module db now1 module_number fid v1 application_id ctx).2) now2 module_number
    fid v2 application_id ctx target mname { app with updated_at := now1 }
    ⟨db.next_module_id, target, module_number, mname, fid, Json.str v1,
      "proxy_entered", 1, now1⟩
    hmod hres happ1 hauth hst1 hst2 hkey1
  refine ⟨?_, ?_, ?_, ?_, ?_, ?_⟩
  · rw [h1]; rfl
  · rw [h1]; rfl
  · rw [h1]
    show ((db.module_data ++ _).filter _).map _ = _
    rw [List.filter_append, habsent]
    simp [hnewkey]
  · rw [h2]; rfl
  · rw [h2]; rfl
  · rw [h2]
    show (((_ : DB).module_data.map _).filter _).map _ = _
    rw [h1]
    show (((db.module_data ++ _).map _).filter _).map _ = _
    rw [List.map_append]
    have hid : db.module_data.map (fun r =>
        if r.id == (⟨db.next_module_id, target, module_number, mname, fid, Json.str v1,
          "proxy_entered", 1, now1⟩ : ModuleRow).id then
          { r with value := Json.str v2, data_source := "proxy_edited",
                   confidence_score := 1, updated_at := now2 }
        else r) = db.module_data := by
      conv_rhs => rw [← List.map_id db.module_data]
      apply List.map_congr_left
      intro r hr
      have : r.id ≠ db.next_module_id := by
        have := hbound r hr
        omega
      simp [this]
    rw [hid, List.filter_append, habsent]
    simp [moduleKey]

/-- The application of the double-update scenario. -/
def exApp4 : Application :=
  ⟨"a4", "u4", "draft", "organic", none, "t0", "t0"⟩

/-- A database with an unlocked application and no module data yet. -/
def exDB4 : DB :=
  ⟨[exApp4], [], [], [], 1⟩

/-- Witness for C7: writing `total_revenue` twice leaves one row holding
the second value with source `proxy_edited` and confidence 1.0, and the
second call reports the first call's value as `old_value`. -/
theorem claim_C7_idempotent_upsert_witness :
    (update_module (update_module exDB4 "T1" 1 "total_revenue" "100" (some "a4")
        (some ⟨some "u4", none⟩)).2 "T2" 1 "total_revenue" "200" (some "a4")
        (some ⟨some "u4", none⟩)).1.getKey "old_value" = some (.str "100")
    ∧ ((update_module (update_module exDB4 "T1" 1 "total_revenue" "100" (some "a4")
        (some ⟨some "u4", none⟩)).2 "T2" 1 "total_revenue" "200" (some "a4")
        (some ⟨some "u4", none⟩)).2.module_data.filter
          (moduleKey "a4" "financial" "total_revenue")).map
        (fun r => (r.value, r.data_source, r.confidence_score))
      = [(Json.str "200", "proxy_edited", (1 : Rat))] := by
  have h := claim_C7_idempotent_upsert exDB4 "T1" "T2" 1 "total_revenue" "100" "200"
    (some "a4") (some ⟨some "u4", none⟩) "a4" "financial" exApp4
    rfl rfl rfl (Or.inr rfl) (by decide) (by decide) (by simp [exDB4]) rfl
  exact ⟨h.2.2.2.2.1, h.2.2.2.2.2⟩

/-- Claim C8: `request_audit` on an existing module field merges the audit
flag into the stored value without discarding it: a scalar string value is
wrapped into an object in which the original value (under `_value`), the
flag, the reason and the request timestamp co-exist; in particular the
original string is still recoverable after the call. -/
theorem claim_C8_audit_flag_merge (db : DB) (now reason : String)
    (application_id : Option String) (ctx : Option Ctx) (target fid s : String)
    (app : Application) (row : ModuleRow)
    (hres : resolveAppId application_id ctx = some target)
    (happ : db.applications.find? (fun a => a.id == target) = some app)
    (hauth : ctxUser ctx = "" ∨ app.user_id = ctxUser ctx)
    (hrow : db.module_data.find?
      (fun r => r.application_id == target && r.field_name == fid) = some row)
    (hval : row.value = .str s) :
    (request_audit db now reason application_id none (some [fid]) ctx).1.getKey "success"
      = some (.bool true)
    ∧ (request_audit db now reason application_id none (some [fid]) ctx).1.getKey
        "flagged_fields_count" = some (.num 1)
    ∧ (request_audit db now reason application_id none (some [fid]) ctx).2.module_data.find?
        (fun r => r.application_id == target && r.field_name == fid)
      = some { row with
               value := Json.obj [("_value", Json.str s), ("_audit_flagged", Json.bool true),
                 ("_audit_reason", Json.str reason), ("_audit_requested_at", Json.str now)],
               updated_at := now }
    ∧ (∀ r', (request_audit db now reason application_id none (some [fid]) ctx).2.module_data.find?
          (fun r => r.application_id == target && r.field_name == fid) = some r' →
        r'.value.getKey "_value" = some (.str s)
        ∧ r'.value.getKey "_audit_flagged" = some (.bool true)
        ∧ r'.value.getKey "_audit_reason" = some (.str reason)
        ∧ r'.value.getKey "_audit_requested_at" = some (.str now)) := by
  have hauthb : (ctxUser ctx != "" && app.user_id != ctxUser ctx) = false := by
    rcases hauth with h | h <;> simp [h]
  have hfst : (request_audit db now reason application_id none (some [fid]) ctx).1
      = requestAuditSuccessJson reason 1 false
          ["Field '" ++ fid ++ "' in module " ++ toString row.module_number ++ " flagged"] := by
    simp [request_audit, hres, happ, hauthb, flagOneField, hrow, strTruthy, listTruthy]
  have hmd : (request_audit db now reason application_id none (some [fid]) ctx).2.module_data
      = db.module_data.map (fun r =>
          if r.id == row.id then
            { r with value := flagFieldValue now reason r.value, updated_at := now }
          else r) := by
    simp [request_audit, hres, happ, hauthb, flagOneField, hrow, strTruthy, listTruthy,
      apply_ite (fun d : DB => d.module_data)]
  have hfind : (request_audit db now reason application_id none (some [fid]) ctx).2.module_data.find?
      (fun r => r.application_id == target && r.field_name == fid)
      = some { row with
               value := Json.obj [("_value", Json.str s), ("_audit_flagged", Json.bool true),
                 ("_audit_reason", Json.str reason), ("_audit_requested_at", Json.str now)],
               updated_at := now } := by
    rw [hmd]
    rw [find?_map_of_pred_inv _ _ _
      (fun r => by
        by_cases hid : (r.id == row.id) = true
        · simp [hid]
        · simp [hid]), hrow]
    simp only [Option.map_some']
    rw [if_pos (by simp)]
    rw [show flagFieldValue now reason row.value =
        Json.obj [("_value", Json.str s), ("_audit_flagged", Json.bool true),
          ("_audit_reason", Json.str reason), ("_audit_requested_at", Json.str now)] from by
      rw [hval]
      rfl]
  refine ⟨?_, ?_, hfind, ?_⟩
  · rw [hfst]; rfl
  · rw [hfst]; rfl
  · intro r' h
    rw [hfind] at h
    cases h
    exact ⟨rfl, rfl, rfl, rfl⟩

/-- The application of the audit-flag scenario. -/
def exApp5 : Application :=
  ⟨"a5", "u5", "in_progress", "organic", none, "t0", "t0"⟩

/-- A database whose `total_revenue` field stores the plain string
`"125000"`. -/
def exDB5 : DB :=
  ⟨[exApp5], [],
   [⟨1, "a5", 1, "financial", "total_revenue", .str "125000", "ocr_extracted", 1, "t0"⟩],
   [], 2⟩

/-- Witness for C8: flagging `total_revenue` (stored as the plain string
`"125000"`) keeps `"125000"` recoverable under `_value` alongside the
flag, reason and timestamp. -/
theorem claim_C8_audit_flag_merge_witness :
    (request_audit exDB5 "T" "low OCR confidence" (some "a5") none
        (some ["total_revenue"]) (some ⟨some "u5", some "a5"⟩)).1.getKey "success"
      = some (.bool true)
    ∧ (request_audit exDB5 "T" "low OCR confidence" (some "a5") none
        (some ["total_revenue"]) (some ⟨some "u5", some "a5"⟩)).2.module_data.find?
        (fun r => r.application_id == "a5" && r.field_name == "total_revenue")
      = some ⟨1, "a5", 1, "financial", "total_revenue",
          Json.obj [("_value", Json.str "125000"), ("_audit_flagged", Json.bool true),
            ("_audit_reason", Json.str "low OCR confidence"),
            ("_audit_requested_at", Json.str "T")],
          "ocr_extracted", 1, "T"⟩ := by
  have h := claim_C8_audit_flag_merge exDB5 "T" "low OCR confidence" (some "a5")
    (some ⟨some "u5", some "a5"⟩) "a5" "total_revenue" "125000" exApp5
    ⟨1, "a5", 1, "financial", "total_revenue", .str "125000", "ocr_extracted", 1, "t0"⟩
    rfl rfl (Or.inr rfl) rfl rfl
  exact ⟨h.1, h.2.2.1⟩

/-- An application already in the terminal `approved` status. -/
def exApp6 : Application :=
  ⟨"a6", "u6", "approved", "organic", some "n", "t0", "t0"⟩

/-- A database whose only application is approved (locked), with one
stored module field. -/
def exDB6 : DB :=
  ⟨[exApp6], [],
   [⟨1, "a6", 1, "financial", "total_revenue", .str "125000", "ocr_extracted", 1, "t0"⟩],
   [], 2⟩

/-- Claim C2, evaluated at the failing input: on an `approved` application,
`update_module` returns `application_locked` and changes nothing, but
`request_audit` — which has no terminal-status gate — reports success,
rewrites the stored field value, appends an audit-trail row and bumps the
application's `updated_at`, contradicting the claimed lock enforcement. -/
theorem claim_C2_lock_enforcement_bug :
    update_module exDB6 "T" 1 "total_revenue" "999" (some "a6") (some ⟨some "u6", some "a6"⟩)
      = (.obj [("error", .str "application_locked"),
               ("message", .str "Cannot update fields in a approved application. Application is locked.")],
         exDB6)
    ∧ (request_audit exDB6 "T" "stale figure" (some "a6") none (some ["total_revenue"])
        (some ⟨some "u6", some "a6"⟩)).1.getKey "error" = none
    ∧ (request_audit exDB6 "T" "stale figure" (some "a6") none (some ["total_revenue"])
        (some ⟨some "u6", some "a6"⟩)).1.getKey "success" = some (.bool true)
    ∧ (request_audit exDB6 "T" "stale figure" (some "a6") none (some ["total_revenue"])
        (some ⟨some "u6", some "a6"⟩)).2.module_data
      = [⟨1, "a6", 1, "financial", "total_revenue",
          Json.obj [("_value", Json.str "125000"), ("_audit_flagged", Json.bool true),
            ("_audit_reason", Json.str "stale figure"),
            ("_audit_requested_at", Json.str "T")],
          "ocr_extracted", 1, "T"⟩]
    ∧ (request_audit exDB6 "T" "stale figure" (some "a6") none (some ["total_revenue"])
        (some ⟨some "u6", some "a6"⟩)).2.audit_trail
      = [⟨"a6", "u6", "audit_requested", some "total_revenue", "stale figure", "T"⟩]
    ∧ (request_audit exDB6 "T" "stale figure" (some "a6") none (some ["total_revenue"])
        (some ⟨some "u6", some "a6"⟩)).2.applications
      = [⟨"a6", "u6", "approved", "organic", some "n", "t0", "T"⟩] := by
  exact ⟨rfl, rfl, rfl, rfl, rfl, rfl⟩
